import Mathlib

/-!
Shallow embedding of `flake-fmt` (`src/flake_fmt/__main__.py`), a caching
wrapper that locates a flake project root, decides whether the cached
formatter artifact is stale, rebuilds it with `nix build` when needed, and
launches the resulting executable.

Filesystem state, environment variables and subprocess outcomes are passed
explicitly; `st_mtime` values are modelled as integers (only order
comparisons occur in the code).
-/

namespace FlakeFmt

/-- Python truthiness of `os.environ.get(name)`: the variable is "set"
exactly when it is present with a nonempty value. -/
def envTruthy : Option String → Bool
  | none => false
  | some s => !(s == "")

/-- ASCII lowering, modelling Python `str.lower()` on the ASCII values the
code compares against. -/
def strLower (s : String) : String :=
  String.mk (s.toList.map Char.toLower)

/-- From `main`, lines 241-242: debug logging is enabled iff
`os.environ.get("FLAKE_FMT_DEBUG", "").lower()` is in
`["1", "true", "yes", "on"]`. -/
def debugEnabled (v : Option String) : Bool :=
  ["1", "true", "yes", "on"].contains (strLower (v.getD ""))

/-- Model of `parse_arguments` (lines 68-81): split the argument list on the first
literal `"--"`; tokens before it go to nix, tokens after it go to the
formatter; with no separator everything goes to nix. -/
def parse_arguments (args : List String) : List String × List String :=
  if args.contains "--" then
    let split_index := args.indexOf "--"
    (args.take split_index, args.drop (split_index + 1))
  else
    (args, [])

/-- What the walk of `find_flake_root` sees in one directory. -/
structure Dir where
  hasFlake : Bool
  hasGit : Bool
  deriving DecidableEq, Repr

/-- Model of `find_flake_root` (lines 35-65) over the resolved ancestor chain
`start, parent, …, filesystem root` (the last list element is the
directory with `current == current.parent`).  Returns the index of the
directory returned by the Python code.  In a non-root directory the code
first checks `flake.nix`, then stops with `None` at a `.git` boundary,
else ascends; the filesystem root is checked once for `flake.nix` only. -/
def find_flake_root : List Dir → Option Nat
  | [] => none
  | [root] => if root.hasFlake then some 0 else none
  | d :: rest =>
    if d.hasFlake then some 0
    else if d.hasGit then none
    else (find_flake_root rest).map (· + 1)

/-- Mtime-bearing view of one named input file under the project root:
`none` when the file does not exist, `some m` its `st_mtime` otherwise. -/
abbrev FileM := Option Int

/-- The loop of `check_cache_validity` (lines 139-147): scan the input
files in order; an existing file whose mtime is strictly greater than the
cache entry's flips `needs_update` and breaks; a missing file is skipped. -/
def staleScan (reference_time : Int) : List FileM → Bool
  | [] => false
  | none :: rest => staleScan reference_time rest
  | some m :: rest =>
    if m > reference_time then true else staleScan reference_time rest

/-- Filesystem/environment state consulted by `check_cache_validity`. -/
structure CacheFS where
  entryExists : Bool
  entryMtime : Int
  noCache : Option String
  flakeNix : FileM
  flakeLock : FileM

/-- Model of `check_cache_validity` (lines 122-152): missing entry → rebuild with no
extra args; `NO_CACHE` set → rebuild with no extra args; otherwise emit
`["-o", entry]` and scan `flake.nix` then `flake.lock` for a strictly
newer mtime. -/
def check_cache_validity (fmt_cache_path : String) (fs : CacheFS) :
    Bool × List String :=
  if !fs.entryExists then
    (true, [])
  else if envTruthy fs.noCache then
    (true, [])
  else
    (staleScan fs.entryMtime [fs.flakeNix, fs.flakeLock],
     ["-o", fmt_cache_path])

/-! ### SHA-256 (semantics of `hashlib.sha256(...).hexdigest()`)

`get_cache_path` (line 112) keys the cache by
`hashlib.sha256(str(toplevel).encode()).hexdigest()`.  The hash is
implemented here over byte lists (`Nat` values `< 256`), with 32-bit words
as `Nat` reduced mod `2 ^ 32`. -/

/-- Truncate to a 32-bit word. -/
def w32 (n : Nat) : Nat := n % 2 ^ 32

/-- 32-bit wrapping addition. -/
def add32 (a b : Nat) : Nat := (a + b) % 2 ^ 32

/-- Rotate a 32-bit word right by `n` bits. -/
def rotr32 (n x : Nat) : Nat := ((x >>> n) ||| (x <<< (32 - n))) % 2 ^ 32

/-- SHA-256 `Ch(x, y, z)`. -/
def sha2Ch (x y z : Nat) : Nat := (x &&& y) ^^^ ((x ^^^ 0xffffffff) &&& z)

/-- SHA-256 `Maj(x, y, z)`. -/
def sha2Maj (x y z : Nat) : Nat := (x &&& y) ^^^ (x &&& z) ^^^ (y &&& z)

/-- SHA-256 `Σ₀`. -/
def bSig0 (x : Nat) : Nat := rotr32 2 x ^^^ rotr32 13 x ^^^ rotr32 22 x

/-- SHA-256 `Σ₁`. -/
def bSig1 (x : Nat) : Nat := rotr32 6 x ^^^ rotr32 11 x ^^^ rotr32 25 x

/-- SHA-256 `σ₀`. -/
def sSig0 (x : Nat) : Nat := rotr32 7 x ^^^ rotr32 18 x ^^^ (x >>> 3)

/-- SHA-256 `σ₁`. -/
def sSig1 (x : Nat) : Nat := rotr32 17 x ^^^ rotr32 19 x ^^^ (x >>> 10)

/-- The SHA-256 round constants. -/
def sha2K : List Nat :=
  [1116352408, 1899447441, 3049323471, 3921009573,
   961987163, 1508970993, 2453635748, 2870763221,
   3624381080, 310598401, 607225278, 1426881987,
   1925078388, 2162078206, 2614888103, 3248222580,
   3835390401, 4022224774, 264347078, 604807628,
   770255983, 1249150122, 1555081692, 1996064986,
   2554220882, 2821834349, 2952996808, 3210313671,
   3336571891, 3584528711, 113926993, 338241895,
   666307205, 773529912, 1294757372, 1396182291,
   1695183700, 1986661051, 2177026350, 2456956037,
   2730485921, 2820302411, 3259730800, 3345764771,
   3516065817, 3600352804, 4094571909, 275423344,
   430227734, 506948616, 659060556, 883997877,
   958139571, 1322822218, 1537002063, 1747873779,
   1955562222, 2024104815, 2227730452, 2361852424,
   2428436474, 2756734187, 3204031479, 3329325298]

/-- The eight 32-bit words of a SHA-256 working state. -/
structure Hash8 where
  a : Nat
  b : Nat
  c : Nat
  d : Nat
  e : Nat
  f : Nat
  g : Nat
  h : Nat
  deriving Repr, DecidableEq

/-- The SHA-256 initial hash value. -/
def sha2H0 : Hash8 :=
  ⟨1779033703, 3144134277, 1013904242, 2773480762,
   1359893119, 2600822924, 528734635, 1541459225⟩

/-- Extend sixteen message words to the 64-entry SHA-256 message schedule. -/
def extendW (ws : List Nat) : List Nat :=
  (List.range 48).foldl
    (fun acc _ =>
      let n := acc.length
      let g := fun i => acc.getD i 0
      acc ++ [add32 (add32 (sSig1 (g (n - 2))) (g (n - 7)))
                    (add32 (sSig0 (g (n - 15))) (g (n - 16)))])
    ws

/-- One SHA-256 compression round. -/
def sha2Round (s : Hash8) (wk : Nat × Nat) : Hash8 :=
  let t1 := add32 (add32 (add32 s.h (bSig1 s.e))
                         (add32 (sha2Ch s.e s.f s.g) wk.2)) wk.1
  let t2 := add32 (bSig0 s.a) (sha2Maj s.a s.b s.c)
  ⟨add32 t1 t2, s.a, s.b, s.c, add32 s.d t1, s.e, s.f, s.g⟩

/-- Compress one 16-word block into the running hash state. -/
def compressBlock (s : Hash8) (block : List Nat) : Hash8 :=
  let s' := ((extendW block).zip sha2K).foldl sha2Round s
  ⟨add32 s.a s'.a, add32 s.b s'.b, add32 s.c s'.c, add32 s.d s'.d,
   add32 s.e s'.e, add32 s.f s'.f, add32 s.g s'.g, add32 s.h s'.h⟩

/-- Split a list into chunks of `n`, driven by an explicit fuel. -/
def chunksAux (n : Nat) : Nat → List Nat → List (List Nat)
  | 0, _ => []
  | _, [] => []
  | fuel + 1, xs => xs.take n :: chunksAux n fuel (xs.drop n)

/-- Split a byte list into chunks of `n` bytes. -/
def chunksOf (n : Nat) (xs : List Nat) : List (List Nat) :=
  chunksAux n xs.length xs

/-- Group bytes into big-endian 32-bit words. -/
def bytesToWords : List Nat → List Nat
  | b0 :: b1 :: b2 :: b3 :: rest =>
    ((b0 <<< 24) ||| (b1 <<< 16) ||| (b2 <<< 8) ||| b3) :: bytesToWords rest
  | _ => []

/-- SHA-256 padding: a `0x80` byte, zeros to 56 mod 64, then the bit length
as eight big-endian bytes. -/
def padMessage (msg : List Nat) : List Nat :=
  let bitLen := msg.length * 8
  let padZeros := (64 + 56 - (msg.length + 1) % 64) % 64
  msg ++ [0x80] ++ List.replicate padZeros 0 ++
    ([56, 48, 40, 32, 24, 16, 8, 0].map fun s => (bitLen >>> s) &&& 255)

/-- Big-endian bytes of a 32-bit word. -/
def wordToBytes (w : Nat) : List Nat :=
  [(w >>> 24) &&& 255, (w >>> 16) &&& 255, (w >>> 8) &&& 255, w &&& 255]

/-- The 32 SHA-256 digest bytes of a byte-list message. -/
def sha256bytes (msg : List Nat) : List Nat :=
  let blocks := (chunksOf 64 (padMessage msg)).map bytesToWords
  let fin := blocks.foldl compressBlock sha2H0
  wordToBytes fin.a ++ wordToBytes fin.b ++ wordToBytes fin.c ++
    wordToBytes fin.d ++ wordToBytes fin.e ++ wordToBytes fin.f ++
    wordToBytes fin.g ++ wordToBytes fin.h

/-- A nibble as a lowercase hex character, as Python `hexdigest` prints. -/
def hexChar (n : Nat) : Char :=
  if n < 10 then Char.ofNat (48 + n) else Char.ofNat (87 + n)

/-- Two lowercase hex characters of one byte. -/
def byteHex (b : Nat) : List Char := [hexChar (b / 16), hexChar (b % 16)]

/-- UTF-8 encoding of one code point, the semantics of Python
`str.encode()` per character. -/
def utf8Bytes (c : Char) : List Nat :=
  let n := c.toNat
  if n < 0x80 then [n]
  else if n < 0x800 then
    [0xc0 ||| (n >>> 6), 0x80 ||| (n &&& 0x3f)]
  else if n < 0x10000 then
    [0xe0 ||| (n >>> 12), 0x80 ||| ((n >>> 6) &&& 0x3f),
     0x80 ||| (n &&& 0x3f)]
  else
    [0xf0 ||| (n >>> 18), 0x80 ||| ((n >>> 12) &&& 0x3f),
     0x80 ||| ((n >>> 6) &&& 0x3f), 0x80 ||| (n &&& 0x3f)]

/-- UTF-8 bytes of a string, the semantics of Python `s.encode()`. -/
def strBytes (s : String) : List Nat :=
  (s.toList.map utf8Bytes).flatten

/-- Semantics of `hashlib.sha256(s.encode()).hexdigest()`: the lowercase-hex SHA-256
digest of the UTF-8 encoding of `s`. -/
def sha256hex (s : String) : String :=
  String.mk ((sha256bytes (strBytes s)).map byteHex).flatten

/-- Model of `get_cache_path` (lines 110-119): the cache base is
`os.environ.get("XDG_CACHE_HOME", str(Path.home() / ".cache"))`; the cache
dir appends `/flake-fmt` and the entry appends the hex SHA-256 digest of
the root path string. -/
def get_cache_path (toplevel : String) (xdgCacheHome : Option String)
    (home : String) : String × String :=
  let escaped_toplevel := sha256hex toplevel
  let cache_home := xdgCacheHome.getD (home ++ "/.cache")
  let cache_dir := cache_home ++ "/flake-fmt"
  let fmt_cache_path := cache_dir ++ "/" ++ escaped_toplevel
  (cache_dir, fmt_cache_path)

/-! ### Subprocess models -/

/-- Outcome of one external subprocess invocation: its exit status and
captured streams. -/
structure Proc where
  returncode : Int
  stdout : String
  stderr : String

/-- The data of a raised `NixCommandError` (lines 15-32). -/
structure NixError where
  cmd : List String
  returncode : Int
  stdout : String
  stderr : String
  deriving DecidableEq

/-- Python `str.strip()`: drop whitespace from both ends. -/
def pyStrip (s : String) : String :=
  String.mk
    (((s.toList.dropWhile Char.isWhitespace).reverse.dropWhile
        Char.isWhitespace).reverse)

/-- The `run_nix` helper (lines 84-98) prepends the fixed `nix` invocation prefix. -/
def nixCmd (args : List String) : List String :=
  "nix" :: "--extra-experimental-features" :: "flakes nix-command" :: args

/-- Model of `run_nix` with `capture_output=True`: a nonzero exit raises
`NixCommandError`; success returns the stripped stdout. -/
def run_nix (args : List String) (p : Proc) : Except NixError String :=
  let cmd := nixCmd args
  if p.returncode ≠ 0 then
    .error ⟨cmd, p.returncode, p.stdout, p.stderr⟩
  else
    .ok (pyStrip p.stdout)

/-- Boolean prefix test on character lists. -/
def prefixB : List Char → List Char → Bool
  | a :: as, b :: bs => (a == b) && prefixB as bs
  | [], _ => true
  | _, [] => false

/-- Boolean infix test on character lists. -/
def infixB (needle : List Char) : List Char → Bool
  | [] => needle.isEmpty
  | b :: bs => prefixB needle (b :: bs) || infixB needle bs

/-- Python `needle in hay` on strings. -/
def strContains (hay needle : String) : Bool :=
  infixB needle.toList hay.toList

/-- The `nix eval` query command of `build_formatter` (line 169). -/
def queryCmd (current_system : String) (nix_args : List String) :
    List String :=
  "eval" :: ".#formatter" :: "--apply" ::
    ("(val: val ? " ++ current_system ++ ")") :: nix_args

/-- The `nix build` command of `build_formatter` (lines 187-198). -/
def buildCmd (fmt_cache_path current_system : String)
    (build_args nix_args : List String) : List String :=
  ["build", "--print-out-paths", "--out-link", fmt_cache_path,
   "--builders", "", "--keep-failed"] ++ build_args ++ nix_args ++
    [".#formatter." ++ current_system]

/-- How a `build_formatter` call ends. -/
inductive BFResult where
  /-- Process exit `sys.exit(0)` after the "Warning: No formatter defined" message. -/
  | exit0warn : BFResult
  /-- A `NixCommandError` propagates out of `build_formatter`. -/
  | raised (e : NixError) : BFResult
  /-- The built formatter path is returned. -/
  | built (path : String) : BFResult
  deriving DecidableEq

/-- Result of `build_formatter` plus the observable side effects the claims
talk about: whether the `nix build` step ran and whether the warning was
printed to stderr. -/
structure BFOut where
  result : BFResult
  ranBuild : Bool
  warned : Bool
  deriving DecidableEq

/-- Model of `build_formatter` (lines 155-206): query whether `.#formatter` has an
attribute for the current system; a non-`"true"` answer or a query failure
whose stderr contains `"does not provide attribute"` warns and exits 0
without building; any other query failure propagates; otherwise `nix
build` runs and its stripped stdout is the returned path. -/
def build_formatter (current_system fmt_cache_path : String)
    (build_args nix_args : List String) (queryProc buildProc : Proc) :
    BFOut :=
  match run_nix (queryCmd current_system nix_args) queryProc with
  | .ok result =>
    if result ≠ "true" then
      ⟨.exit0warn, false, true⟩
    else
      match run_nix (buildCmd fmt_cache_path current_system build_args
          nix_args) buildProc with
      | .ok fmt_path => ⟨.built (pyStrip fmt_path), true, false⟩
      | .error e => ⟨.raised e, true, false⟩
  | .error e =>
    if strContains e.stderr "does not provide attribute" then
      ⟨.exit0warn, false, true⟩
    else
      ⟨.raised e, false, false⟩

/-! ### Formatter execution -/

/-- One directory entry of the artifact's `bin/` directory as the code
inspects it: its name, whether it is a regular file and whether it is
executable. -/
structure BinEntry where
  name : String
  isFile : Bool
  isExec : Bool
  deriving DecidableEq, Repr

/-- Filesystem state consulted by `execute_formatter` at the artifact
path: the `bin/treefmt` entry, the `bin/` listing in the incidental
order `iterdir` yields it, and the artifact's own executability. -/
structure ArtifactFS where
  treefmtExists : Bool
  treefmtExec : Bool
  binExists : Bool
  binEntries : List BinEntry
  selfExec : Bool
  deriving DecidableEq, Repr

/-- The loop of lines 222-226: the first entry of the listing that is a
regular executable file. -/
def firstExecEntry : List BinEntry → Option BinEntry
  | [] => none
  | e :: rest =>
    if e.isFile && e.isExec then some e else firstExecEntry rest

/-- What `execute_formatter` does at the end: launch a subprocess (argv
and working directory) and exit with its status, or exit 1. -/
inductive Launch where
  /-- Launch `subprocess.run(argv, cwd=cwd)` then `sys.exit(returncode)`. -/
  | run (argv : List String) (cwd : String) : Launch
  /-- "No executable formatter found", `sys.exit(1)`. -/
  | exitNoExec : Launch
  deriving DecidableEq

/-- Model of `execute_formatter` (lines 209-235): prefer `bin/treefmt` when it
exists and is executable; else the first executable regular file of the
`bin/` listing; else the artifact path itself when executable; else exit
1.  Every launch runs with `cwd=toplevel`. -/
def execute_formatter (fmt_cache_path : String)
    (formatter_args : List String) (toplevel : String) (fs : ArtifactFS) :
    Launch :=
  if fs.treefmtExists && fs.treefmtExec then
    .run ((fmt_cache_path ++ "/bin/treefmt") :: formatter_args) toplevel
  else
    match (if fs.binExists then firstExecEntry fs.binEntries else none) with
    | some e =>
      .run ((fmt_cache_path ++ "/bin/" ++ e.name) :: formatter_args)
        toplevel
    | none =>
      if fs.selfExec then
        .run (fmt_cache_path :: formatter_args) toplevel
      else
        .exitNoExec

/-! ### `main` -/

/-- The external state one run of `main` observes: the environment, the
result of root discovery, the outcome of each subprocess, the cache
filesystem state, the artifact filesystem state, and the exit status of
the launched formatter. -/
structure World where
  args : List String
  rootFound : Option String
  systemProc : Proc
  xdgCacheHome : Option String
  home : String
  cacheFS : CacheFS
  queryProc : Proc
  buildProc : Proc
  artifactFS : ArtifactFS
  runExit : Int

/-- Exit code and launch trace of one `main` run. -/
structure MainOut where
  exit : Int
  launched : Option Launch

/-- The tail of `main`: run `execute_formatter` at `path` and turn its
outcome into the process exit status. -/
def launchStep (path : String) (formatter_args : List String)
    (toplevel : String) (w : World) : MainOut :=
  match execute_formatter path formatter_args toplevel w.artifactFS with
  | .run argv cwd => ⟨w.runExit, some (.run argv cwd)⟩
  | .exitNoExec => ⟨1, some .exitNoExec⟩

/-- Model of `main` (lines 238-283): parse arguments, find the flake root (exit 1
when absent), query the current system, derive the cache path, check
cache validity, rebuild via `build_formatter` when stale, and execute the
formatter; a `NixCommandError` reaching the top becomes
`sys.exit(e.returncode)`. -/
def main (w : World) : MainOut :=
  let nix_args := (parse_arguments w.args).1
  let formatter_args := (parse_arguments w.args).2
  match w.rootFound with
  | none => ⟨1, none⟩
  | some toplevel =>
    match run_nix ["config", "show", "system"] w.systemProc with
    | .error e => ⟨e.returncode, none⟩
    | .ok current_system =>
      let fmt_cache_path :=
        (get_cache_path toplevel w.xdgCacheHome w.home).2
      let needs_update :=
        (check_cache_validity fmt_cache_path w.cacheFS).1
      let build_args :=
        (check_cache_validity fmt_cache_path w.cacheFS).2
      if needs_update then
        match (build_formatter current_system fmt_cache_path build_args
            nix_args w.queryProc w.buildProc).result with
        | .exit0warn => ⟨0, none⟩
        | .raised e => ⟨e.returncode, none⟩
        | .built p => launchStep p formatter_args toplevel w
      else
        launchStep fmt_cache_path formatter_args toplevel w

/-! ### Helper lemmas -/

/-- The staleness scan over the two input files fires exactly when one of
them exists with an mtime strictly above the reference time. -/
theorem staleScan_pair (r : Int) (a b : FileM) :
    staleScan r [a, b] = true ↔
      (∃ m, a = some m ∧ r < m) ∨ (∃ m, b = some m ∧ r < m) := by
  cases a <;> cases b <;> simp [staleScan]

/-- A nonempty environment value is truthy. -/
theorem envTruthy_some_ne (s : String) (hs : s ≠ "") :
    envTruthy (some s) = true := by
  simp [envTruthy, hs]

/-- Validation of the SHA-256 embedding against the FIPS 180-2 test
vector for `"abc"`. -/
theorem sha256hex_abc :
    sha256hex "abc" =
      "ba7816bf8f01cfea414140de5dae2223b00361a396177a9cb410ff61f20015ad" := by
  set_option maxRecDepth 10000 in decide

/-! ### Claim theorems -/

/-- C1: `check_cache_validity(e, r)` returns `(true, [])` when the cache
entry is missing, `(true, [])` when the `NO_CACHE` override is set, and
otherwise `(b, ["-o", e])` where `b` holds exactly when `flake.nix` or
`flake.lock` exists with an mtime strictly greater than the entry's; a
missing input file never triggers a rebuild and an equal mtime counts as
fresh. -/
theorem check_cache_validity_spec (p : String) (fs : CacheFS) :
    (fs.entryExists = false → check_cache_validity p fs = (true, [])) ∧
    (fs.entryExists = true → envTruthy fs.noCache = true →
      check_cache_validity p fs = (true, [])) ∧
    (fs.entryExists = true → envTruthy fs.noCache = false →
      (check_cache_validity p fs).2 = ["-o", p] ∧
      ((check_cache_validity p fs).1 = true ↔
        (∃ m, fs.flakeNix = some m ∧ fs.entryMtime < m) ∨
        (∃ m, fs.flakeLock = some m ∧ fs.entryMtime < m))) := by
  refine ⟨fun h1 => ?_, fun h1 h2 => ?_, fun h1 h2 => ?_⟩
  · simp [check_cache_validity, h1]
  · simp [check_cache_validity, h1, h2]
  · refine ⟨by simp [check_cache_validity, h1, h2], ?_⟩
    have hfst : (check_cache_validity p fs).1 =
        staleScan fs.entryMtime [fs.flakeNix, fs.flakeLock] := by
      simp [check_cache_validity, h1, h2]
    rw [hfst]
    exact staleScan_pair fs.entryMtime fs.flakeNix fs.flakeLock

/-- Witness for C1 at concrete states: a missing entry, a set override
with an existing entry, and an existing entry whose `flake.lock` is
strictly newer. -/
theorem check_cache_validity_spec_witness :
    check_cache_validity "e" ⟨false, 0, none, none, none⟩ = (true, []) ∧
    check_cache_validity "e" ⟨true, 0, some "1", none, none⟩ = (true, []) ∧
    ((check_cache_validity "e" ⟨true, 5, none, some 5, some 6⟩).2 =
        ["-o", "e"] ∧
      ((check_cache_validity "e" ⟨true, 5, none, some 5, some 6⟩).1 =
          true ↔
        (∃ m, (some (5 : Int)) = some m ∧ (5 : Int) < m) ∨
        (∃ m, (some (6 : Int)) = some m ∧ (5 : Int) < m))) :=
  ⟨(check_cache_validity_spec "e" ⟨false, 0, none, none, none⟩).1 rfl,
   (check_cache_validity_spec "e" ⟨true, 0, some "1", none, none⟩).2.1
     rfl (by decide),
   (check_cache_validity_spec "e" ⟨true, 5, none, some 5, some 6⟩).2.2
     rfl rfl⟩

/-- C9: the `NO_CACHE` override is treated as set for every nonempty
value, including `"0"`, `"false"` and whitespace, forcing a rebuild when
the entry exists; only an unset `NO_CACHE` or the empty string falls
through to the mtime comparison — unlike the debug toggle, which only
recognizes `"1"`, `"true"`, `"yes"`, `"on"` case-insensitively. -/
theorem no_cache_truthiness (p : String) (fs : CacheFS) :
    (∀ s, s ≠ "" → fs.noCache = some s → fs.entryExists = true →
      check_cache_validity p fs = (true, [])) ∧
    ((fs.noCache = none ∨ fs.noCache = some "") → fs.entryExists = true →
      check_cache_validity p fs =
        (staleScan fs.entryMtime [fs.flakeNix, fs.flakeLock],
         ["-o", p])) ∧
    envTruthy (some "0") = true ∧ envTruthy (some "false") = true ∧
    envTruthy (some " ") = true ∧ envTruthy none = false ∧
    envTruthy (some "") = false ∧
    debugEnabled (some "1") = true ∧ debugEnabled (some "true") = true ∧
    debugEnabled (some "yes") = true ∧ debugEnabled (some "on") = true ∧
    debugEnabled (some "TRUE") = true ∧ debugEnabled (some "Yes") = true ∧
    debugEnabled (some "0") = false ∧ debugEnabled (some "false") = false ∧
    debugEnabled (some " ") = false ∧ debugEnabled none = false := by
  refine ⟨fun s hs hn h1 => ?_, fun hn h1 => ?_, ?_, ?_, ?_, ?_, ?_, ?_,
    ?_, ?_, ?_, ?_, ?_, ?_, ?_, ?_, ?_⟩
  · simp [check_cache_validity, h1, hn, envTruthy_some_ne s hs]
  · rcases hn with hn | hn <;>
      simp [check_cache_validity, h1, hn, envTruthy]
  all_goals decide

/-- Witness for C9 at concrete states: `NO_CACHE="0"` forces a rebuild on
an existing entry, and an unset `NO_CACHE` falls through to the mtime
scan. -/
theorem no_cache_truthiness_witness :
    check_cache_validity "e" ⟨true, 0, some "0", none, none⟩ =
      (true, []) ∧
    check_cache_validity "e" ⟨true, 5, none, some 5, none⟩ =
      (staleScan 5 [some 5, none], ["-o", "e"]) :=
  ⟨(no_cache_truthiness "e" ⟨true, 0, some "0", none, none⟩).1 "0"
     (by decide) rfl rfl,
   (no_cache_truthiness "e" ⟨true, 5, none, some 5, none⟩).2.1
     (Or.inl rfl) rfl⟩

/-- The bin-directory loop returns the head of the listing filtered to
regular executable files. -/
theorem firstExecEntry_eq_filter_head (l : List BinEntry) :
    firstExecEntry l = (l.filter (fun e => e.isFile && e.isExec)).head? := by
  induction l with
  | nil => rfl
  | cons e rest ih =>
    by_cases he : (e.isFile && e.isExec) = true
    · simp [firstExecEntry, List.filter_cons, he]
    · simp [firstExecEntry, List.filter_cons, he, ih]

/-- C5: `execute_formatter` resolves the binary by first match among
`bin/treefmt` (when existing and executable), then the first executable
regular file of the `bin` listing, then the artifact path itself when
executable; with no match it exits with status 1 without launching. -/
theorem execute_formatter_resolution (p : String) (args : List String)
    (top : String) (fs : ArtifactFS) :
    (fs.treefmtExists = true → fs.treefmtExec = true →
      execute_formatter p args top fs =
        .run ((p ++ "/bin/treefmt") :: args) top) ∧
    (¬(fs.treefmtExists = true ∧ fs.treefmtExec = true) →
      fs.binExists = true → ∀ e, firstExecEntry fs.binEntries = some e →
        execute_formatter p args top fs =
          .run ((p ++ "/bin/" ++ e.name) :: args) top) ∧
    (¬(fs.treefmtExists = true ∧ fs.treefmtExec = true) →
      (fs.binExists = false ∨ firstExecEntry fs.binEntries = none) →
      fs.selfExec = true →
      execute_formatter p args top fs = .run (p :: args) top) ∧
    (¬(fs.treefmtExists = true ∧ fs.treefmtExec = true) →
      (fs.binExists = false ∨ firstExecEntry fs.binEntries = none) →
      fs.selfExec = false →
      execute_formatter p args top fs = .exitNoExec) ∧
    (∀ l : List BinEntry, firstExecEntry l =
      (l.filter (fun e => e.isFile && e.isExec)).head?) := by
  have htf : ∀ (h : ¬(fs.treefmtExists = true ∧ fs.treefmtExec = true)),
      (fs.treefmtExists && fs.treefmtExec) = false := by
    intro h
    cases h1 : fs.treefmtExists <;> cases h2 : fs.treefmtExec <;>
      simp_all
  refine ⟨fun h1 h2 => ?_, fun h hb e he => ?_, fun h hb hs => ?_,
    fun h hb hs => ?_, firstExecEntry_eq_filter_head⟩
  · simp [execute_formatter, h1, h2]
  · simp [execute_formatter, htf h, hb, he]
  · rcases hb with hb | hb <;> simp [execute_formatter, htf h, hb, hs]
  · rcases hb with hb | hb <;> simp [execute_formatter, htf h, hb, hs]

/-- Witness for C5 at concrete filesystem states covering all four
branches. -/
theorem execute_formatter_resolution_witness :
    execute_formatter "p" ["x"] "t" ⟨true, true, false, [], false⟩ =
      .run ["p/bin/treefmt", "x"] "t" ∧
    execute_formatter "p" ["x"] "t"
        ⟨false, false, true, [⟨"fmt", true, true⟩], false⟩ =
      .run ["p/bin/fmt", "x"] "t" ∧
    execute_formatter "p" ["x"] "t"
        ⟨true, false, true, [⟨"fmt", true, false⟩], true⟩ =
      .run ["p", "x"] "t" ∧
    execute_formatter "p" ["x"] "t" ⟨false, true, false, [], false⟩ =
      .exitNoExec :=
  ⟨(execute_formatter_resolution "p" ["x"] "t"
      ⟨true, true, false, [], false⟩).1 rfl rfl,
   (execute_formatter_resolution "p" ["x"] "t"
      ⟨false, false, true, [⟨"fmt", true, true⟩], false⟩).2.1
     (by decide) rfl ⟨"fmt", true, true⟩ rfl,
   (execute_formatter_resolution "p" ["x"] "t"
      ⟨true, false, true, [⟨"fmt", true, false⟩], true⟩).2.2.1
     (by decide) (Or.inr rfl) rfl,
   (execute_formatter_resolution "p" ["x"] "t"
      ⟨false, true, false, [], false⟩).2.2.2.1
     (by decide) (Or.inl rfl) rfl⟩

/-- C6 counterexample: the bin listing is iterated in the incidental
`iterdir` order, not sorted — two states holding the same set of entries
in different listing orders select different executables, and the listing
order `["bfmt", "afmt"]` selects `bfmt`, not the sorted-first `afmt`. -/
theorem execute_formatter_order_dependent :
    ([⟨"bfmt", true, true⟩, ⟨"afmt", true, true⟩] : List BinEntry).Perm
      [⟨"afmt", true, true⟩, ⟨"bfmt", true, true⟩] ∧
    execute_formatter "p" [] "t"
        ⟨false, false, true,
         [⟨"bfmt", true, true⟩, ⟨"afmt", true, true⟩], false⟩ ≠
      execute_formatter "p" [] "t"
        ⟨false, false, true,
         [⟨"afmt", true, true⟩, ⟨"bfmt", true, true⟩], false⟩ ∧
    execute_formatter "p" [] "t"
        ⟨false, false, true,
         [⟨"bfmt", true, true⟩, ⟨"afmt", true, true⟩], false⟩ =
      .run ["p/bin/bfmt"] "t" := by
  refine ⟨by decide, by decide, by decide⟩

/-- C6 amended: with no usable `bin/treefmt`, the executable chosen is
the first executable regular file in the directory's incidental iteration
order; the choice is deterministic only relative to a fixed listing
order, since entries are not sorted. -/
theorem execute_formatter_incidental_order (p top : String)
    (args : List String) (fs : ArtifactFS)
    (hnt : (fs.treefmtExists && fs.treefmtExec) = false)
    (hb : fs.binExists = true) (e : BinEntry)
    (he : (fs.binEntries.filter
      (fun x => x.isFile && x.isExec)).head? = some e) :
    execute_formatter p args top fs =
      .run ((p ++ "/bin/" ++ e.name) :: args) top := by
  have : firstExecEntry fs.binEntries = some e := by
    rw [firstExecEntry_eq_filter_head]; exact he
  simp [execute_formatter, hnt, hb, this]

/-- Witness for the amended C6 at a concrete unsorted listing. -/
theorem execute_formatter_incidental_order_witness :
    execute_formatter "p" [] "t"
        ⟨false, false, true,
         [⟨"bfmt", true, true⟩, ⟨"afmt", true, true⟩], false⟩ =
      .run ["p/bin/bfmt"] "t" :=
  execute_formatter_incidental_order "p" "t" []
    ⟨false, false, true,
     [⟨"bfmt", true, true⟩, ⟨"afmt", true, true⟩], false⟩
    rfl rfl ⟨"bfmt", true, true⟩ rfl

/-- C10: every formatter launch performed by `execute_formatter` — and
hence by `main` — runs with the working directory set to the discovered
project root, in all three resolution branches. -/
theorem formatter_cwd_is_root :
    (∀ (p : String) (args : List String) (top : String)
        (fs : ArtifactFS) (argv : List String) (cwd : String),
      execute_formatter p args top fs = .run argv cwd → cwd = top) ∧
    (∀ (w : World) (t : String), w.rootFound = some t →
      ∀ (argv : List String) (cwd : String),
        (main w).launched = some (.run argv cwd) → cwd = t) := by
  have hexec : ∀ (p : String) (args : List String) (top : String)
      (fs : ArtifactFS) (argv : List String) (cwd : String),
      execute_formatter p args top fs = .run argv cwd → cwd = top := by
    intro p args top fs argv cwd h
    unfold execute_formatter at h
    split at h
    · cases h; rfl
    · split at h
      · cases h; rfl
      · split at h
        · cases h; rfl
        · cases h
  refine ⟨hexec, ?_⟩
  intro w t ht argv cwd h
  unfold main at h
  rw [ht] at h
  simp only at h
  cases hsys : run_nix ["config", "show", "system"] w.systemProc with
  | error e => rw [hsys] at h; simp at h
  | ok cs =>
    rw [hsys] at h
    simp only at h
    split at h
    · split at h
      · simp at h
      · simp at h
      · unfold launchStep at h
        cases hE : execute_formatter _ _ t w.artifactFS with
        | run argv2 cwd2 =>
          rw [hE] at h
          simp only [Option.some.injEq] at h
          cases h
          exact hexec _ _ _ _ _ _ hE
        | exitNoExec => rw [hE] at h; simp at h
    · unfold launchStep at h
      cases hE : execute_formatter _ _ t w.artifactFS with
      | run argv2 cwd2 =>
        rw [hE] at h
        simp only [Option.some.injEq] at h
        cases h
        exact hexec _ _ _ _ _ _ hE
      | exitNoExec => rw [hE] at h; simp at h

/-- Witness for C10 at a concrete world whose run launches `bin/treefmt`
from the project root `/r`. -/
theorem formatter_cwd_is_root_witness :
    (main ⟨[], some "/r", ⟨0, "x86_64-linux", ""⟩, some "/c", "/h",
        ⟨false, 0, none, none, none⟩, ⟨0, "true", ""⟩, ⟨0, "/out", ""⟩,
        ⟨true, true, false, [], false⟩, 7⟩).launched =
      some (.run ["/out/bin/treefmt"] "/r") ∧ "/r" = "/r" :=
  ⟨by decide,
   (formatter_cwd_is_root).2
     ⟨[], some "/r", ⟨0, "x86_64-linux", ""⟩, some "/c", "/h",
       ⟨false, 0, none, none, none⟩, ⟨0, "true", ""⟩, ⟨0, "/out", ""⟩,
       ⟨true, true, false, [], false⟩, 7⟩
     "/r" rfl ["/out/bin/treefmt"] "/r" (by decide)⟩

/-- C4: `build_formatter` exits the process with status 0 after a warning,
without running the build step, in exactly two cases — the availability
query succeeds with a result other than `"true"`, or it fails with a
stderr containing `"does not provide attribute"`; any other query failure
propagates the `NixCommandError` instead. -/
theorem build_formatter_soft_exit (cs fcp : String)
    (ba na : List String) (q b : Proc) :
    ((build_formatter cs fcp ba na q b).result = .exit0warn ↔
      (q.returncode = 0 ∧ pyStrip q.stdout ≠ "true") ∨
      (q.returncode ≠ 0 ∧
        strContains q.stderr "does not provide attribute" = true)) ∧
    ((build_formatter cs fcp ba na q b).result = .exit0warn →
      (build_formatter cs fcp ba na q b).ranBuild = false ∧
      (build_formatter cs fcp ba na q b).warned = true) ∧
    (q.returncode ≠ 0 →
      strContains q.stderr "does not provide attribute" = false →
      (build_formatter cs fcp ba na q b).result =
        .raised ⟨nixCmd (queryCmd cs na), q.returncode, q.stdout,
          q.stderr⟩) := by
  by_cases hq : q.returncode = 0
  · by_cases ht : pyStrip q.stdout = "true"
    · by_cases hb : b.returncode = 0 <;>
        simp [build_formatter, run_nix, hq, ht, hb]
    · simp [build_formatter, run_nix, hq, ht]
  · by_cases hs : strContains q.stderr "does not provide attribute" = true <;>
      simp [build_formatter, run_nix, hq, hs]

/-- Witness for C4 at concrete subprocess outcomes: a `"false"` query
answer, a failing query whose stderr names the missing attribute, and a
failing query with an unrelated stderr. -/
theorem build_formatter_soft_exit_witness :
    ((build_formatter "s" "f" [] [] ⟨0, "false", ""⟩ ⟨0, "", ""⟩).result =
        .exit0warn) ∧
    ((build_formatter "s" "f" [] [] ⟨0, "false", ""⟩
        ⟨0, "", ""⟩).ranBuild = false ∧
      (build_formatter "s" "f" [] [] ⟨0, "false", ""⟩
        ⟨0, "", ""⟩).warned = true) ∧
    ((build_formatter "s" "f" [] []
        ⟨1, "", "error: flake does not provide attribute x"⟩
        ⟨0, "", ""⟩).result = .exit0warn) ∧
    ((build_formatter "s" "f" [] [] ⟨1, "", "boom"⟩ ⟨0, "", ""⟩).result =
      .raised ⟨nixCmd (queryCmd "s" []), 1, "", "boom"⟩) :=
  ⟨(build_formatter_soft_exit "s" "f" [] [] ⟨0, "false", ""⟩
      ⟨0, "", ""⟩).1.mpr (Or.inl ⟨rfl, by decide⟩),
   (build_formatter_soft_exit "s" "f" [] [] ⟨0, "false", ""⟩
      ⟨0, "", ""⟩).2.1 (by decide),
   (build_formatter_soft_exit "s" "f" [] []
      ⟨1, "", "error: flake does not provide attribute x"⟩
      ⟨0, "", ""⟩).1.mpr (Or.inr ⟨by decide, by decide⟩),
   (build_formatter_soft_exit "s" "f" [] [] ⟨1, "", "boom"⟩
      ⟨0, "", ""⟩).2.2 (by decide) (by decide)⟩

/-- A list whose `contains` test is false has no such member. -/
theorem not_mem_of_contains_false {l : List String} {a : String}
    (h : l.contains a = false) : a ∉ l := by
  intro hm
  have : l.contains a = true := List.elem_iff.mpr hm
  rw [this] at h
  cases h

/-- C7: `parse_arguments` routes the tokens before the first `"--"`, in
order, to the nix invocations (which place them in both the query and the
build command lines), and the tokens after it, unchanged, to the launched
formatter; without a separator all tokens go to nix and the formatter
receives none; the separator goes to neither side. -/
theorem parse_arguments_routing :
    (∀ pre post : List String, pre.contains "--" = false →
      parse_arguments (pre ++ "--" :: post) = (pre, post)) ∧
    (∀ args : List String, args.contains "--" = false →
      parse_arguments args = (args, [])) ∧
    (∀ s na, queryCmd s na =
      ["eval", ".#formatter", "--apply", "(val: val ? " ++ s ++ ")"] ++
        na) ∧
    (∀ fcp s ba na, buildCmd fcp s ba na =
      ["build", "--print-out-paths", "--out-link", fcp, "--builders", "",
       "--keep-failed"] ++ ba ++ na ++ [".#formatter." ++ s]) ∧
    (∀ (p : String) (fargs : List String) (top : String) (fs : ArtifactFS)
        (argv : List String) (cwd : String),
      execute_formatter p fargs top fs = .run argv cwd →
        argv.tail = fargs) := by
  refine ⟨fun pre post h => ?_, fun args h => ?_, fun s na => rfl,
    fun fcp s ba na => rfl, fun p fargs top fs argv cwd h => ?_⟩
  · have hmem : "--" ∈ pre ++ "--" :: post :=
      List.mem_append.mpr (Or.inr (List.mem_cons_self _ _))
    have hc : (pre ++ "--" :: post).contains "--" = true :=
      List.elem_iff.mpr hmem
    have hnm : "--" ∉ pre := not_mem_of_contains_false h
    have hidx : (pre ++ "--" :: post).indexOf "--" = pre.length := by
      rw [List.indexOf_append_of_not_mem hnm, List.indexOf_cons_self]
      omega
    have htake : (pre ++ "--" :: post).take pre.length = pre :=
      List.take_left pre ("--" :: post)
    have hdrop : (pre ++ "--" :: post).drop (pre.length + 1) = post := by
      have : pre ++ "--" :: post = (pre ++ ["--"]) ++ post := by simp
      rw [this]
      have hlen : (pre ++ ["--"]).length = pre.length + 1 := by simp
      rw [← hlen]
      exact List.drop_left (pre ++ ["--"]) post
    simp [parse_arguments, hc, hidx, htake, hdrop]
  · have hnm := not_mem_of_contains_false h
    simp [parse_arguments, h, hnm]
  · unfold execute_formatter at h
    split at h
    · cases h; rfl
    · split at h
      · cases h; rfl
      · split at h
        · cases h; rfl
        · cases h

/-- Witness for C7: `a b -- c d` delivers `a b` to nix and `c d` to the
formatter, a separator-free list goes wholly to nix, and a concrete
treefmt launch passes the formatter tokens through unchanged. -/
theorem parse_arguments_routing_witness :
    parse_arguments (["a", "b"] ++ "--" :: ["c", "d"]) =
      (["a", "b"], ["c", "d"]) ∧
    parse_arguments ["a", "b"] = (["a", "b"], []) ∧
    (["p/bin/treefmt", "c", "d"] : List String).tail = ["c", "d"] :=
  ⟨(parse_arguments_routing).1 ["a", "b"] ["c", "d"] (by decide),
   (parse_arguments_routing).2.1 ["a", "b"] (by decide),
   (parse_arguments_routing).2.2.2.2 "p" ["c", "d"] "t"
     ⟨true, true, false, [], false⟩ ["p/bin/treefmt", "c", "d"] "t"
     (by decide)⟩

/-- Default directory view used for out-of-range `getD` lookups. -/
def dfltDir : Dir := ⟨false, false⟩

/-- Success characterization of the walk: `find_flake_root` returns index
`i` exactly when directory `i` holds `flake.nix` and every strictly
earlier directory of the chain holds neither `flake.nix` nor `.git`. -/
theorem ffr_iff (chain : List Dir) (i : Nat) :
    find_flake_root chain = some i ↔
      i < chain.length ∧ (chain.getD i dfltDir).hasFlake = true ∧
        ∀ j, j < i → (chain.getD j dfltDir).hasFlake = false ∧
          (chain.getD j dfltDir).hasGit = false := by
  induction chain generalizing i with
  | nil => simp [find_flake_root]
  | cons d rest ih =>
    cases rest with
    | nil =>
      by_cases hf : d.hasFlake = true <;> cases i <;>
        simp [find_flake_root, hf]
    | cons d2 rest2 =>
      by_cases hf : d.hasFlake = true
      · cases i with
        | zero => simp [find_flake_root, hf]
        | succ n =>
          simp [find_flake_root, hf]
          intro _ _
          exact ⟨0, by omega, fun h0 => by simp at h0; simp [h0] at hf⟩
      · by_cases hg : d.hasGit = true
        · cases i with
          | zero => simp [find_flake_root, hf, hg]
          | succ n =>
            simp [find_flake_root, hf, hg]
            intro _ _
            exact ⟨0, by omega, fun _ => by simpa using hg⟩
        · cases i with
          | zero => simp [find_flake_root, hf, hg, ih]
          | succ n =>
            simp [find_flake_root, hf, hg, ih]
            intro _ _
            constructor
            · intro hall j hj
              cases j with
              | zero =>
                simp only [Bool.not_eq_true] at hf hg
                simpa using ⟨hf, hg⟩
              | succ k =>
                have hk : k < n := by omega
                simpa using hall k hk
            · intro hall j hj
              have := hall (j + 1) (by omega)
              simpa using this

/-- C2: over the resolved ancestor chain, `find_flake_root` returns the
nearest ancestor-or-self directory containing `flake.nix` — provided no
strictly earlier directory holds a `.git` boundary — and returns `none`
as soon as a non-root directory with `.git` and no `flake.nix` is
reached, never searching above it.  The characterization places no
condition on `.git` at the returned index, so a directory holding both
markers yields success, and the index may be the chain's last entry: the
filesystem root is checked once for `flake.nix` before giving up. -/
theorem find_flake_root_correct (chain : List Dir) (i : Nat) :
    (find_flake_root chain = some i ↔
      i < chain.length ∧ (chain.getD i dfltDir).hasFlake = true ∧
        ∀ j, j < i → (chain.getD j dfltDir).hasFlake = false ∧
          (chain.getD j dfltDir).hasGit = false) ∧
    (∀ j, j + 1 < chain.length → (chain.getD j dfltDir).hasGit = true →
      (chain.getD j dfltDir).hasFlake = false →
      (∀ k, k < j → (chain.getD k dfltDir).hasFlake = false ∧
        (chain.getD k dfltDir).hasGit = false) →
      find_flake_root chain = none) := by
  refine ⟨ffr_iff chain i, fun j hj hgit hnofl hclean => ?_⟩
  cases hfind : find_flake_root chain with
  | none => rfl
  | some i2 =>
    exfalso
    obtain ⟨hi2, hfl, hall⟩ := (ffr_iff chain i2).mp hfind
    rcases lt_trichotomy i2 j with hlt | heq | hgt
    · have h2 := (hclean i2 hlt).1
      rw [h2] at hfl
      cases hfl
    · subst heq
      rw [hnofl] at hfl
      cases hfl
    · have h2 := (hall j hgt).2
      rw [h2] at hgit
      cases hgit

/-- Witness for C2 at concrete chains: the marker found in the parent, a
`.git` boundary without a marker halting the walk, and a directory
holding both markers yielding success. -/
theorem find_flake_root_correct_witness :
    find_flake_root [⟨false, false⟩, ⟨true, false⟩] = some 1 ∧
    find_flake_root [⟨false, true⟩, ⟨true, false⟩] = none ∧
    find_flake_root [⟨true, true⟩, ⟨false, false⟩] = some 0 :=
  ⟨(find_flake_root_correct [⟨false, false⟩, ⟨true, false⟩] 1).1.mpr
     (by decide),
   (find_flake_root_correct [⟨false, true⟩, ⟨true, false⟩] 0).2 0
     (by decide) rfl rfl (by decide),
   (find_flake_root_correct [⟨true, true⟩, ⟨false, false⟩] 0).1.mpr
     (by decide)⟩

/-- One byte renders as exactly two hex characters. -/
theorem flatten_map_byteHex_length (l : List Nat) :
    ((l.map byteHex).flatten).length = 2 * l.length := by
  induction l with
  | nil => rfl
  | cons b rest ih => simp [byteHex, ih]; omega

/-- The digest always holds 32 bytes. -/
theorem sha256bytes_length (msg : List Nat) :
    (sha256bytes msg).length = 32 := by
  simp [sha256bytes, wordToBytes]

/-- The hex digest always holds 64 characters (256 bits). -/
theorem sha256hex_length (s : String) : (sha256hex s).length = 64 := by
  have h2 := flatten_map_byteHex_length (sha256bytes (strBytes s))
  rw [sha256bytes_length (strBytes s)] at h2
  show (((sha256bytes (strBytes s)).map byteHex).flatten).length = 64
  exact h2.trans (by decide)

/-- C8: `get_cache_path(r)` returns the pair
`(B/flake-fmt, B/flake-fmt/H)` where `B` is `XDG_CACHE_HOME` defaulting
to `~/.cache` and `H` is the fixed-length (64 hex characters, 256 bits)
SHA-256 hex digest of the root path string; identical roots yield
identical entry paths for the same cache base. -/
theorem get_cache_path_spec (r : String) (xdg : Option String)
    (home : String) :
    get_cache_path r xdg home =
      (xdg.getD (home ++ "/.cache") ++ "/flake-fmt",
       xdg.getD (home ++ "/.cache") ++ "/flake-fmt" ++ "/" ++
         sha256hex r) ∧
    (sha256hex r).length = 64 ∧
    (∀ r2, r = r2 →
      get_cache_path r xdg home = get_cache_path r2 xdg home) :=
  ⟨rfl, sha256hex_length r, fun r2 h => by rw [h]⟩

/-- Witness for C8 at a concrete root, cache base and home. -/
theorem get_cache_path_spec_witness :
    get_cache_path "/r" (some "/c") "/h" =
      get_cache_path "/r" (some "/c") "/h" ∧
    (sha256hex "/r").length = 64 :=
  ⟨(get_cache_path_spec "/r" (some "/c") "/h").2.2 "/r" rfl,
   (get_cache_path_spec "/r" (some "/c") "/h").2.1⟩

/-- A launch step that ran a formatter exits with the formatter's status. -/
theorem launchStep_run_exit (path : String) (fargs : List String)
    (top : String) (w : World) (argv : List String) (cwd : String)
    (h : (launchStep path fargs top w).launched = some (.run argv cwd)) :
    (launchStep path fargs top w).exit = w.runExit := by
  unfold launchStep at h ⊢
  cases hE : execute_formatter path fargs top w.artifactFS <;> simp_all

/-- A launch step that found no executable exits with status 1. -/
theorem launchStep_noexec_exit (path : String) (fargs : List String)
    (top : String) (w : World)
    (h : (launchStep path fargs top w).launched = some .exitNoExec) :
    (launchStep path fargs top w).exit = 1 := by
  unfold launchStep at h ⊢
  cases hE : execute_formatter path fargs top w.artifactFS <;> simp_all

/-- Every run of `main` either launches nothing or ends in a launch step. -/
theorem main_shape (w : World) :
    (main w).launched = none ∨
    ∃ path t, main w = launchStep path (parse_arguments w.args).2 t w := by
  unfold main
  cases w.rootFound with
  | none => exact Or.inl rfl
  | some t =>
    cases run_nix ["config", "show", "system"] w.systemProc with
    | error e => exact Or.inl rfl
    | ok cs =>
      simp only
      split
      · split
        · exact Or.inl rfl
        · exact Or.inl rfl
        · exact Or.inr ⟨_, t, rfl⟩
      · exact Or.inr ⟨_, t, rfl⟩

/-- C3: `main` exits 1 when no project root is found; with the exit code
of any failing nix command (the system query or the build); 0 on the
no-formatter-for-this-platform path; with the launched formatter's exact
exit code when a formatter is launched (hence 0 on a fully successful
run); and 1 when no executable can be resolved inside the built
artifact. -/
theorem main_exit_codes (w : World) :
    (w.rootFound = none → main w = ⟨1, none⟩) ∧
    (∀ t, w.rootFound = some t → w.systemProc.returncode ≠ 0 →
      main w = ⟨w.systemProc.returncode, none⟩) ∧
    (∀ t, w.rootFound = some t → w.systemProc.returncode = 0 →
      (check_cache_validity
        (get_cache_path t w.xdgCacheHome w.home).2 w.cacheFS).1 = true →
      ((build_formatter (pyStrip w.systemProc.stdout)
          (get_cache_path t w.xdgCacheHome w.home).2
          (check_cache_validity
            (get_cache_path t w.xdgCacheHome w.home).2 w.cacheFS).2
          (parse_arguments w.args).1 w.queryProc w.buildProc).result =
            .exit0warn →
        main w = ⟨0, none⟩) ∧
      (∀ e, (build_formatter (pyStrip w.systemProc.stdout)
          (get_cache_path t w.xdgCacheHome w.home).2
          (check_cache_validity
            (get_cache_path t w.xdgCacheHome w.home).2 w.cacheFS).2
          (parse_arguments w.args).1 w.queryProc w.buildProc).result =
            .raised e →
        main w = ⟨e.returncode, none⟩)) ∧
    (∀ argv cwd, (main w).launched = some (.run argv cwd) →
      (main w).exit = w.runExit) ∧
    ((main w).launched = some .exitNoExec → (main w).exit = 1) := by
  refine ⟨fun h => ?_, fun t ht hs => ?_, fun t ht hs hn => ?_,
    fun argv cwd h => ?_, fun h => ?_⟩
  · unfold main
    rw [h]
  · unfold main
    rw [ht]
    have hrn : run_nix ["config", "show", "system"] w.systemProc =
        .error ⟨nixCmd ["config", "show", "system"],
          w.systemProc.returncode, w.systemProc.stdout,
          w.systemProc.stderr⟩ := by
      simp [run_nix, hs]
    rw [hrn]
  · unfold main
    rw [ht]
    have hrn : run_nix ["config", "show", "system"] w.systemProc =
        .ok (pyStrip w.systemProc.stdout) := by
      simp [run_nix, hs]
    rw [hrn]
    dsimp only
    rw [if_pos hn]
    constructor
    · intro hb
      rw [hb]
    · intro e hb
      rw [hb]
  · rcases main_shape w with hnone | ⟨path, t, hmain⟩
    · rw [hnone] at h
      cases h
    · rw [hmain] at h ⊢
      exact launchStep_run_exit path (parse_arguments w.args).2 t w
        argv cwd h
  · rcases main_shape w with hnone | ⟨path, t, hmain⟩
    · rw [hnone] at h
      cases h
    · rw [hmain] at h ⊢
      exact launchStep_noexec_exit path (parse_arguments w.args).2 t w h

set_option maxRecDepth 40000 in
/-- Witness for C3 at concrete worlds covering the five exit paths: no
root, failing system query, no-formatter warning, a launched formatter
returning 7, and an artifact with no executable. -/
theorem main_exit_codes_witness :
    main ⟨[], none, ⟨0, "", ""⟩, some "/c", "/h",
        ⟨false, 0, none, none, none⟩, ⟨0, "", ""⟩, ⟨0, "", ""⟩,
        ⟨false, false, false, [], false⟩, 7⟩ = ⟨1, none⟩ ∧
    main ⟨[], some "/r", ⟨3, "", "bad"⟩, some "/c", "/h",
        ⟨false, 0, none, none, none⟩, ⟨0, "", ""⟩, ⟨0, "", ""⟩,
        ⟨false, false, false, [], false⟩, 7⟩ = ⟨3, none⟩ ∧
    main ⟨[], some "/r", ⟨0, "x", ""⟩, some "/c", "/h",
        ⟨false, 0, none, none, none⟩, ⟨0, "false", ""⟩, ⟨0, "", ""⟩,
        ⟨false, false, false, [], false⟩, 7⟩ = ⟨0, none⟩ ∧
    main ⟨[], some "/r", ⟨0, "x", ""⟩, some "/c", "/h",
        ⟨false, 0, none, none, none⟩, ⟨0, "true", ""⟩, ⟨5, "", "boom"⟩,
        ⟨false, false, false, [], false⟩, 7⟩ = ⟨5, none⟩ ∧
    (main ⟨[], some "/r", ⟨0, "x", ""⟩, some "/c", "/h",
        ⟨false, 0, none, none, none⟩, ⟨0, "true", ""⟩, ⟨0, "/out", ""⟩,
        ⟨true, true, false, [], false⟩, 7⟩).exit = 7 ∧
    (main ⟨[], some "/r", ⟨0, "x", ""⟩, some "/c", "/h",
        ⟨false, 0, none, none, none⟩, ⟨0, "true", ""⟩, ⟨0, "/out", ""⟩,
        ⟨false, false, false, [], false⟩, 7⟩).exit = 1 :=
  ⟨(main_exit_codes ⟨[], none, ⟨0, "", ""⟩, some "/c", "/h",
      ⟨false, 0, none, none, none⟩, ⟨0, "", ""⟩, ⟨0, "", ""⟩,
      ⟨false, false, false, [], false⟩, 7⟩).1 rfl,
   (main_exit_codes ⟨[], some "/r", ⟨3, "", "bad"⟩, some "/c", "/h",
      ⟨false, 0, none, none, none⟩, ⟨0, "", ""⟩, ⟨0, "", ""⟩,
      ⟨false, false, false, [], false⟩, 7⟩).2.1 "/r" rfl (by decide),
   ((main_exit_codes ⟨[], some "/r", ⟨0, "x", ""⟩, some "/c", "/h",
      ⟨false, 0, none, none, none⟩, ⟨0, "false", ""⟩, ⟨0, "", ""⟩,
      ⟨false, false, false, [], false⟩, 7⟩).2.2.1 "/r" rfl rfl
     (by decide)).1 (by decide),
   ((main_exit_codes ⟨[], some "/r", ⟨0, "x", ""⟩, some "/c", "/h",
      ⟨false, 0, none, none, none⟩, ⟨0, "true", ""⟩, ⟨5, "", "boom"⟩,
      ⟨false, false, false, [], false⟩, 7⟩).2.2.1 "/r" rfl rfl
     (by decide)).2 ⟨nixCmd (buildCmd
        (get_cache_path "/r" (some "/c") "/h").2 "x"
        (check_cache_validity
          (get_cache_path "/r" (some "/c") "/h").2
          ⟨false, 0, none, none, none⟩).2 []), 5, "", "boom"⟩
     (by decide),
   (main_exit_codes ⟨[], some "/r", ⟨0, "x", ""⟩, some "/c", "/h",
      ⟨false, 0, none, none, none⟩, ⟨0, "true", ""⟩, ⟨0, "/out", ""⟩,
      ⟨true, true, false, [], false⟩, 7⟩).2.2.2.1
     ["/out/bin/treefmt"] "/r" (by decide),
   (main_exit_codes ⟨[], some "/r", ⟨0, "x", ""⟩, some "/c", "/h",
      ⟨false, 0, none, none, none⟩, ⟨0, "true", ""⟩, ⟨0, "/out", ""⟩,
      ⟨false, false, false, [], false⟩, 7⟩).2.2.2.2 (by decide)⟩

end FlakeFmt
